import Mathlib

set_option maxHeartbeats 1000000

namespace SimpleEditor

/-- Python strings are modelled as lists of characters. -/
abbrev PyStr := List Char

/-! ## Tabs (src/tabs.py)

`Tab` is the abstract tab class; `FileTab` is its file-backed variant.  For the
tab-manager claims only the identity of a tab, whether it is a `FileTab`, and
its optional filesystem path matter, so a tab is a tagged value carrying an id
and, for the file variant, an optional path. -/

inductive Tab where
  | generic (id : Nat)
  | file (id : Nat) (path : Option PyStr)

deriving instance DecidableEq for Tab

/-- Model of `Tab.equivalent` / `FileTab.equivalent` from src/tabs.py.  The base class
returns `False`; `FileTab.equivalent(other)` is true when `other` is a
`FileTab`, both paths are non-`None`, and `os.path.samefile` holds.  The
filesystem identity test `os.path.samefile` is passed in as a function. -/
def Tab.equivalent (samefile : PyStr → PyStr → Bool) : Tab → Tab → Bool
  | Tab.file _ (some p), Tab.file _ (some q) => samefile p q
  | _, _ => false

/-- State of `TabManager` (a `ttk.Notebook`): the ordered tuple returned by
`tabs()` and the currently selected tab (`select()` returns `None` when the
notebook is empty). -/
structure TabManager where
  tabs : List Tab
  selected : Option Tab

deriving instance DecidableEq for TabManager

/-- Virtual events generated by the tab manager that the claims mention. -/
inductive TMEvent where
  | newTab (t : Tab)

deriving instance DecidableEq for TMEvent

/-- Model of `TabManager.add_tab` from src/tabs.py.  The `assert tab not in self.tabs()`
is modelled by returning `none` (an `AssertionError` propagating).  Otherwise:
the first existing tab equivalent to `tab` is selected (if requested) and
returned without inserting; else `tab` is appended at the end, optionally
selected, and a `<<NewTab>>` event carrying `tab` is generated.  The result is
the new manager state, the returned tab and the list of generated events. -/
def add_tab (samefile : PyStr → PyStr → Bool) (m : TabManager) (tab : Tab)
    (sel : Bool) : Option (TabManager × Tab × List TMEvent) :=
  if tab ∈ m.tabs then none
  else
    match m.tabs.find? (fun e => tab.equivalent samefile e) with
    | some existing =>
        some (if sel then { m with selected := some existing } else m, existing, [])
    | none =>
        let m1 : TabManager := { tabs := m.tabs ++ [tab], selected := m.selected }
        let m2 : TabManager := if sel then { m1 with selected := some tab } else m1
        some (m2, tab, [TMEvent.newTab tab])

/-- Model of `TabManager.select_another_tab` from src/tabs.py.  The leading
`assert diff in {1, -1}` is modelled by returning `none` when it fails, as is
the uncatchable `TclError` from `self.index(None)` when a non-empty notebook
had no selection (impossible under Tk, which always selects some tab of a
non-empty notebook).  `self.select(index + diff)` succeeds exactly when the
integer index is in range; out of range it raises `tkinter.TclError`, which
the source catches and turns into `False`. -/
def select_another_tab (m : TabManager) (diff : Int) : Option (TabManager × Bool) :=
  if diff = 1 ∨ diff = -1 then
    if m.tabs.isEmpty then some (m, false)
    else
      match m.selected with
      | none => none
      | some t =>
        let j : Int := (m.tabs.indexOf t : Int) + diff
        if 0 ≤ j then
          match m.tabs.get? j.toNat with
          | some u => some ({ m with selected := some u }, true)
          | none => some (m, false)
        else some (m, false)
  else none

/-! ## FileTab save-state tracking (src/tabs.py)

A `FileTab` keeps the text-widget content, the optional filesystem path, the
digest stored by the last `mark_saved()` and the cached token list.  The MD5
digest of the encoded content is treated as an abstract function
`md5 : PyStr → PyStr` (the hexdigest of the byte stream produced by streaming
`iter_chunks()` — whose chunks concatenate to the full content — through
`hashlib.md5`); every claim about it quantifies only over equality or
inequality of digests, never over MD5 internals. -/

structure FileTabM where
  path : Option PyStr
  content : PyStr
  save_hash : PyStr
  tokens : List PyStr

deriving instance DecidableEq for FileTabM

/-- Model of `FileTab._get_hash`: the digest of the current content. -/
def get_hash (md5 : PyStr → PyStr) (t : FileTabM) : PyStr := md5 t.content

/-- Model of `FileTab.mark_saved`: recompute and store the digest of current content. -/
def mark_saved (md5 : PyStr → PyStr) (t : FileTabM) : FileTabM :=
  { t with save_hash := get_hash md5 t }

/-- Model of `FileTab.is_saved`: recompute the digest fresh and compare with the one
stored at the last `mark_saved()`. -/
def is_saved (md5 : PyStr → PyStr) (t : FileTabM) : Bool :=
  get_hash md5 t == t.save_hash

/-- A mutation of the text-widget content (insert/delete/replace collapsed to
the resulting content). -/
def set_content (t : FileTabM) (c : PyStr) : FileTabM := { t with content := c }

/-- The `tokens` property setter of `FileTab`:
`if len(new_tokens) > 0: self._tokens = new_tokens`. -/
def set_tokens (t : FileTabM) (new_tokens : List PyStr) : FileTabM :=
  if new_tokens.length > 0 then { t with tokens := new_tokens } else t

/-! ## FileTab save / save_as / can_be_closed (src/tabs.py)

The dialogs and the file write are external effects; their outcomes are inputs
to the model.  Python return values `True`/`False`/`None` are the three-valued
`PyVal`. -/

inductive PyVal where
  | pyTrue
  | pyFalse
  | pyNone

deriving instance DecidableEq for PyVal

/-- Outcomes of the external calls made during saving:
`promptResult` is what `filedialog.asksaveasfilename` returns (the empty
string on cancel), `writeOk` is whether the `backup_open` write completes
without raising `OSError`/`UnicodeError`, and `askAnswer` is what
`messagebox.askyesnocancel` returns (`None` = cancel). -/
structure SaveEnv where
  promptResult : PyStr
  writeOk : Bool
  askAnswer : Option Bool

deriving instance DecidableEq for SaveEnv

/-- The `self.path is not None` branch of `FileTab.save`: stream the content
through `backup_open`; on `OSError`/`UnicodeError` show an error dialog and
return `None`; on success `mark_saved()` and return `True`. -/
def save_with_path (md5 : PyStr → PyStr) (env : SaveEnv) (t : FileTabM) :
    FileTabM × PyVal :=
  if env.writeOk then (mark_saved md5 t, PyVal.pyTrue) else (t, PyVal.pyNone)

/-- Model of `FileTab.save_as`: prompt for a path; if cancelled (`not path`) return
`False`; otherwise set `self.path`, call `self.save()` (which now takes the
path-is-set branch) discarding its result, and return `True`. -/
def save_as (md5 : PyStr → PyStr) (env : SaveEnv) (t : FileTabM) :
    FileTabM × PyVal :=
  if env.promptResult.isEmpty then (t, PyVal.pyFalse)
  else
    ((save_with_path md5 env { t with path := some env.promptResult }).1,
      PyVal.pyTrue)

/-- Model of `FileTab.save`: with no path defer to `save_as`, otherwise write to the
current path. -/
def save (md5 : PyStr → PyStr) (env : SaveEnv) (t : FileTabM) :
    FileTabM × PyVal :=
  match t.path with
  | none => save_as md5 env t
  | some _ => save_with_path md5 env t

/-- Model of `FileTab.can_be_closed`: `True` immediately if saved; else ask
yes/no/cancel — cancel gives `False`, no gives `True`, yes returns whatever
`self.save()` returns. -/
def can_be_closed (md5 : PyStr → PyStr) (env : SaveEnv) (t : FileTabM) :
    FileTabM × PyVal :=
  if is_saved md5 t then (t, PyVal.pyTrue)
  else
    match env.askAnswer with
    | none => (t, PyVal.pyFalse)
    | some true => save md5 env t
    | some false => (t, PyVal.pyTrue)

/-! ## Action registry (src/actions.py) -/

/-- The `kind` argument of `_add_any_action`. -/
inductive AKind where
  | command
  | yesno
  | choice

deriving instance DecidableEq for AKind

/-- An `_Action` object, keeping the fields the claims are about.  Each
successful registration constructs a fresh object; object distinctness is
observable through the `path` attribute, which registration sets to the
registered path. -/
structure RAction where
  path : PyStr
  kind : AKind
  binding : Option PyStr

deriving instance DecidableEq for RAction

/-- The `_actions` ordered dictionary: insertion-ordered path/action pairs. -/
abbrev Registry := List (PyStr × RAction)

/-- The exceptions `_add_any_action` raises. -/
inductive RegError where
  | valueError
  | typeError
  | runtimeError

deriving instance DecidableEq for RegError

/-- Test whether the path starts with the separator character. -/
def startswithSlash : PyStr → Bool
  | [] => false
  | c :: _ => c == '/'

/-- Test whether the path ends with the separator character. -/
def endswithSlash (p : PyStr) : Bool := startswithSlash p.reverse

/-- Membership test of a path in the registry, as in `path in _actions`. -/
def regContains (r : Registry) (p : PyStr) : Bool :=
  (r.find? (fun e => e.1 == p)).isSome

/-- The classes a tab-type enablement rule can mention: `Tab`, `FileTab` or
`type(None)` (from a `None` entry in `tabtypes`). -/
inductive PyClass where
  | tabClass
  | fileTabClass
  | noneType

deriving instance DecidableEq for PyClass

/-- Model of `_add_any_action` from src/actions.py, up to the registration checks and
the insertion into `_actions` (the enablement and binding wiring is modelled
separately below).  Check order as in the source: malformed path, then
over-specified enablement rule, then duplicate path. -/
def add_any_action (r : Registry) (path : PyStr) (kind : AKind)
    (binding : Option PyStr) (filetype_names : Option (List PyStr))
    (tabtypes : Option (List PyClass)) : Except RegError (Registry × RAction) :=
  if startswithSlash path || endswithSlash path then Except.error RegError.valueError
  else if filetype_names.isSome && tabtypes.isSome then Except.error RegError.typeError
  else if regContains r path then Except.error RegError.runtimeError
  else
    Except.ok (r ++ [(path, RAction.mk path kind binding)],
      RAction.mk path kind binding)

/-- Python rstrip with the separator character: drop every trailing slash. -/
def rstripSlash (p : PyStr) : PyStr := (p.reverse.dropWhile (fun c => c == '/')).reverse

/-- Model of `get_action` from src/actions.py: registry lookup of the
slash-stripped path; a
missing key (Python `KeyError`) is `none`. -/
def get_action (r : Registry) (p : PyStr) : Option RAction :=
  (r.find? (fun e => e.1 == rstripSlash p)).map (fun e => e.2)

/-- Invariant of `_actions` maintained by `_add_any_action`: every stored
action records the path it was registered under, and no registered path ends
with a separator (such paths are rejected with `ValueError`). -/
def RegWF (r : Registry) : Prop :=
  ∀ e ∈ r, e.2.path = e.1 ∧ endswithSlash e.1 = false

instance (r : Registry) : Decidable (RegWF r) := by
  unfold RegWF
  infer_instance

/-! ## Tab-type enablement rules (src/actions.py) -/

/-- Python `isinstance(x, cls)` for the selected-tab values at play:
`get_tab_manager().select()` is `None` or a tab. -/
def pyMatches : Option Tab → PyClass → Bool
  | some (Tab.generic _), PyClass.tabClass => true
  | some (Tab.file _ _), PyClass.tabClass => true
  | some (Tab.file _ _), PyClass.fileTabClass => true
  | none, PyClass.noneType => true
  | _, _ => false

/-- Python isinstance of the selected tab against a tuple of classes. -/
def pyIsinstance (x : Option Tab) (classes : List PyClass) : Bool :=
  classes.any (pyMatches x)

/-- Joint state of the tab-manager selection and one action registered with a
`tabtypes` enablement rule. -/
structure EnSt where
  selected : Option Tab
  enabled : Bool

deriving instance DecidableEq for EnSt

/-- The `enable_or_disable` closure of the `tabtypes is not None` branch:
`action.enabled = isinstance(get_tab_manager().select(), tabtypes)`. -/
def enable_or_disable (tabtypes : List PyClass) (s : EnSt) : EnSt :=
  { s with enabled := pyIsinstance s.selected tabtypes }

/-- One selection change: the notebook selection moves to `newSel` and the
`<<NotebookTabChanged>>` binding runs `enable_or_disable` — no explicit
`set_enabled` call is involved. -/
def selectionChange (tabtypes : List PyClass) (s : EnSt) (newSel : Option Tab) :
    EnSt :=
  enable_or_disable tabtypes { s with selected := newSel }

/-! ## Keyboard-binding dispatch (src/actions.py) -/

/-- State a bound action can touch from its `bind_callback`: the `enabled`
flag, the `yesno` boolean variable, and a count of `command` callback
invocations. -/
structure BindSt where
  enabled : Bool
  var : Bool
  callCount : Nat

deriving instance DecidableEq for BindSt

/-- The `bind_callback` closure of `_add_any_action`: when the action is
enabled, run the effect (`command`: invoke the callback; `yesno`: flip the
variable) and return the Tcl break string so the key event is consumed;
otherwise fall through returning `None` so the key propagates to the focused
widget.  The second component is whether break was returned. -/
def bind_callback (kind : AKind) (s : BindSt) : BindSt × Bool :=
  if s.enabled then
    let s1 := if kind == AKind.command then { s with callCount := s.callCount + 1 } else s
    let s2 := if kind == AKind.yesno then { s1 with var := !s1.var } else s1
    (s2, true)
  else (s, false)

/-! ## backup_open (src/utils.py)

The filesystem is a finite path/content map.  `shutil.copy`, `shutil.move` and
`os.remove` are the usual operations on it.  The body of the
`with backup_open(...) as f` block either writes the full data or raises after
writing only an initial part (as `FileTab.save` does, an
`OSError`/`UnicodeError` that the `except Exception` of `backup_open` catches);
write mode truncates first, so on an error the destination holds exactly what
was written before the raise. -/

abbrev FS := List (PyStr × PyStr)

/-- Content of the file at `p`, if it exists. -/
def fsRead (fs : FS) (p : PyStr) : Option PyStr :=
  (fs.find? (fun e => e.1 == p)).map (fun e => e.2)

/-- Existence test, as in `os.path.exists`. -/
def fsExists (fs : FS) (p : PyStr) : Bool := (fsRead fs p).isSome

/-- Create or overwrite the file at `p` with content `c`. -/
def fsWrite (fs : FS) (p c : PyStr) : FS :=
  fs.filter (fun e => !(e.1 == p)) ++ [(p, c)]

/-- Deletion of a file, as in `os.remove`. -/
def fsRemove (fs : FS) (p : PyStr) : FS :=
  fs.filter (fun e => !(e.1 == p))

/-- Copying, as in `shutil.copy src dst` (for an existing source file). -/
def fsCopy (fs : FS) (src dst : PyStr) : FS :=
  match fsRead fs src with
  | some c => fsWrite fs dst c
  | none => fs

/-- Moving, as in `shutil.move src dst` for files: dst is overwritten, src
disappears. -/
def fsMove (fs : FS) (src dst : PyStr) : FS :=
  match fsRead fs src with
  | some c => fsWrite (fsRemove fs src) dst c
  | none => fs

/-- Python rfind: index of the last occurrence, `-1` if absent. -/
def rfindIdx (p : PyStr) (c : Char) : Int :=
  match p.reverse.findIdx? (fun d => d == c) with
  | none => -1
  | some i => (p.length : Int) - 1 - (i : Int)

/-- Model of `os.path.splitext` (CPython `genericpath._splitext` with slash as
separator and dot as extension separator): split at the last dot that comes
after the last slash, unless
every character between them is a dot (leading dots of the basename never
start an extension). -/
def splitext (p : PyStr) : PyStr × PyStr :=
  let sepIndex := rfindIdx p '/'
  let dotIndex := rfindIdx p '.'
  if sepIndex < dotIndex then
    let between := (p.drop (sepIndex + 1).toNat).take (dotIndex - sepIndex - 1).toNat
    if between.all (fun c => c == '.') then (p, [])
    else (p.take dotIndex.toNat, p.drop dotIndex.toNat)
  else (p, [])

/-- The characters of `"-backup"`. -/
def backupSuffix : PyStr := ['-', 'b', 'a', 'c', 'k', 'u', 'p']

/-- The backup-name search loop of `backup_open` (append the backup suffix to
the stem while the candidate exists), with
explicit fuel (each iteration lengthens the candidate, and the filesystem is
finite, so `fs.length + 1` rounds always suffice). -/
def findBackup (fs : FS) (name ext : PyStr) : Nat → PyStr
  | 0 => name ++ ext
  | fuel + 1 =>
    if fsExists fs (name ++ ext) then findBackup fs (name ++ backupSuffix) ext fuel
    else name ++ ext

/-- The `backuppath` computed by `backup_open` for an existing `path`. -/
def backupPathFor (fs : FS) (path : PyStr) : PyStr :=
  findBackup fs (splitext path).1 (splitext path).2 (fs.length + 1)

/-- What the body of the `with` block does: write `data` completely, or raise
error `e` after writing only the initial part `written`. -/
inductive WriteOutcome where
  | ok (data : PyStr)
  | raises (written : PyStr) (e : Nat)

deriving instance DecidableEq for WriteOutcome

/-- Model of `backup_open` from src/utils.py, run as a context manager around the
writing body `w`: if the destination exists it is first copied to a fresh
backup path; the body then (over)writes the destination; on an exception the
backup is moved back over the destination and the original error is re-raised
(second component `some e`); on success the backup is deleted.  When the
destination does not exist there is no backup to manage. -/
def backup_open (fs : FS) (path : PyStr) (w : WriteOutcome) : FS × Option Nat :=
  if fsExists fs path then
    let backuppath := backupPathFor fs path
    let fs1 := fsCopy fs path backuppath
    match w with
    | WriteOutcome.ok data => (fsRemove (fsWrite fs1 path data) backuppath, none)
    | WriteOutcome.raises written e =>
        (fsMove (fsWrite fs1 path written) backuppath path, some e)
  else
    match w with
    | WriteOutcome.ok data => (fsWrite fs path data, none)
    | WriteOutcome.raises written e => (fsWrite fs path written, some e)

/-! ## Helper lemmas -/

theorem rstripSlash_of_not_endswith (p : PyStr) (h : endswithSlash p = false) :
    rstripSlash p = p := by
  have h1 : p.reverse.dropWhile (fun c => c == '/') = p.reverse := by
    cases hp : p.reverse with
    | nil => simp
    | cons c cs =>
      have hc : (c == '/') = false := by
        simpa [endswithSlash, startswithSlash, hp] using h
      simp [List.dropWhile_cons, hc]
  unfold rstripSlash
  rw [h1, List.reverse_reverse]

theorem dropWhile_append_of_all (s t : PyStr) (hs : ∀ c ∈ s, c = '/') :
    (s ++ t).dropWhile (fun c => c == '/') = t.dropWhile (fun c => c == '/') := by
  induction s with
  | nil => simp
  | cons c cs ih =>
    have hc : (c == '/') = true := by simp [hs c (by simp)]
    rw [List.cons_append, List.dropWhile_cons, hc]
    exact ih (fun d hd => hs d (by simp [hd]))

theorem rstripSlash_append_slashes (p s : PyStr) (hp : endswithSlash p = false)
    (hs : ∀ c ∈ s, c = '/') :
    rstripSlash (p ++ s) = p := by
  unfold rstripSlash
  rw [List.reverse_append]
  rw [dropWhile_append_of_all s.reverse p.reverse (fun c hc => hs c (List.mem_reverse.mp hc))]
  exact rstripSlash_of_not_endswith p hp

theorem endswithSlash_append_slashes (p s : PyStr) (hne : s ≠ [])
    (hs : ∀ c ∈ s, c = '/') : endswithSlash (p ++ s) = true := by
  unfold endswithSlash
  rw [List.reverse_append]
  cases hrev : s.reverse with
  | nil =>
    exact absurd (by simpa using congrArg List.reverse hrev) hne
  | cons c cs =>
    have hc : c ∈ s := List.mem_reverse.mp (by simp [hrev])
    simp [startswithSlash, hs c hc]

theorem mem_get_action (r : Registry) (p : PyStr) (a : RAction)
    (hWF : RegWF r) (h : (p, a) ∈ r) :
    ∃ b, get_action r p = some b ∧ b.path = p := by
  have hns : endswithSlash p = false := (hWF (p, a) h).2
  have hstrip : rstripSlash p = p := rstripSlash_of_not_endswith p hns
  have hsome : (r.find? (fun e => e.1 == rstripSlash p)).isSome := by
    rw [List.find?_isSome]
    exact ⟨(p, a), h, by simp [hstrip]⟩
  obtain ⟨e, he⟩ := Option.isSome_iff_exists.mp hsome
  have hmem : e ∈ r := List.mem_of_find?_eq_some he
  have hkey : e.1 = p := by
    have := List.find?_some he
    simpa [hstrip] using this
  refine ⟨e.2, by simp [get_action, he], ?_⟩
  rw [(hWF e hmem).1, hkey]

theorem find?_filter_self_none (l : FS) (p : PyStr) :
    (l.filter (fun e => !(e.1 == p))).find? (fun e => e.1 == p) = none := by
  rw [List.find?_eq_none]
  intro x hx
  have hkeep := (List.mem_filter.mp hx).2
  simp at hkeep
  simp [hkeep]

theorem find?_filter_of_ne (l : FS) (p q : PyStr) (h : p ≠ q) :
    (l.filter (fun e => !(e.1 == p))).find? (fun e => e.1 == q) =
      l.find? (fun e => e.1 == q) := by
  induction l with
  | nil => simp
  | cons e l ih =>
    by_cases he : e.1 = p
    · have hq : (e.1 == q) = false := by simp [he]; exact h
      have hpq : (p == q) = false := by simp [h]
      simp [List.filter_cons, he, List.find?_cons, hq, hpq, ih]
    · simp only [List.filter_cons]
      have : (!(e.1 == p)) = true := by simp [he]
      rw [this]
      simp only [if_true]
      by_cases hq : e.1 = q
      · simp [List.find?_cons, hq]
      · have hq2 : (e.1 == q) = false := by simp [hq]
        simp [List.find?_cons, hq2, ih]

theorem fsRead_fsWrite_self (fs : FS) (p c : PyStr) :
    fsRead (fsWrite fs p c) p = some c := by
  unfold fsRead fsWrite
  rw [List.find?_append, find?_filter_self_none]
  simp

theorem fsRead_fsWrite_ne (fs : FS) (p q c : PyStr) (h : p ≠ q) :
    fsRead (fsWrite fs p c) q = fsRead fs q := by
  unfold fsRead fsWrite
  rw [List.find?_append, find?_filter_of_ne fs p q h]
  cases hf : fs.find? (fun e => e.1 == q) with
  | some e => simp
  | none =>
    have hpq : (p == q) = false := by simp [h]
    simp [List.find?_cons, hpq]

theorem fsRead_fsRemove_self (fs : FS) (p : PyStr) :
    fsRead (fsRemove fs p) p = none := by
  unfold fsRead fsRemove
  rw [find?_filter_self_none]
  rfl

theorem fsRead_fsRemove_ne (fs : FS) (p q : PyStr) (h : p ≠ q) :
    fsRead (fsRemove fs p) q = fsRead fs q := by
  unfold fsRead fsRemove
  rw [find?_filter_of_ne fs p q h]

theorem findBackup_length (fs : FS) (ext : PyStr) :
    ∀ (fuel : Nat) (name : PyStr),
      name.length + ext.length ≤ (findBackup fs name ext fuel).length := by
  intro fuel
  induction fuel with
  | zero => intro name; simp [findBackup]
  | succ n ih =>
    intro name
    unfold findBackup
    by_cases hx : fsExists fs (name ++ ext) = true
    · rw [if_pos hx]
      have := ih (name ++ backupSuffix)
      have hlen : (name ++ backupSuffix).length = name.length + 7 := by
        simp [backupSuffix]
      omega
    · rw [if_neg hx]
      simp

theorem splitext_join (p : PyStr) : (splitext p).1 ++ (splitext p).2 = p := by
  unfold splitext
  by_cases h1 : rfindIdx p '/' < rfindIdx p '.'
  · rw [if_pos h1]
    by_cases h2 : ((p.drop (rfindIdx p '/' + 1).toNat).take
        (rfindIdx p '.' - rfindIdx p '/' - 1).toNat).all (fun c => c == '.') = true
    · rw [if_pos h2]
      simp
    · rw [if_neg h2]
      exact List.take_append_drop _ p
  · rw [if_neg h1]
    simp

theorem backupPathFor_ne (fs : FS) (path : PyStr) (hex : fsExists fs path = true) :
    backupPathFor fs path ≠ path := by
  unfold backupPathFor
  have hjoin := splitext_join path
  unfold findBackup
  rw [hjoin, if_pos hex]
  intro heq
  have hlen := findBackup_length fs (splitext path).2 fs.length ((splitext path).1 ++ backupSuffix)
  rw [heq] at hlen
  have h1 : ((splitext path).1 ++ backupSuffix).length = (splitext path).1.length + 7 := by
    simp [backupSuffix]
  have h2 : (splitext path).1.length + (splitext path).2.length = path.length := by
    have := congrArg List.length hjoin
    simpa using this
  omega

/-! ## Claim theorems -/

/-- Claim C2: `is_saved()` immediately after `mark_saved()` is true; `is_saved()`
is true exactly when the freshly recomputed content digest equals the digest
stored at the last `mark_saved()`; and any content mutation that changes the
digest makes `is_saved()` false until the next `mark_saved()`. -/
theorem is_saved_digest_scheme (md5 : PyStr → PyStr) (t : FileTabM) (c : PyStr)
    (hchange : md5 c ≠ md5 t.content) :
    is_saved md5 (mark_saved md5 t) = true ∧
    (∀ u : FileTabM, is_saved md5 u = true ↔ get_hash md5 u = u.save_hash) ∧
    is_saved md5 (set_content (mark_saved md5 t) c) = false := by
  refine ⟨?_, ?_, ?_⟩
  · simp [is_saved, mark_saved, get_hash]
  · intro u
    simp [is_saved, get_hash]
  · simp only [is_saved, mark_saved, set_content, get_hash]
    simpa using hchange

theorem is_saved_digest_scheme_witness :
    is_saved (fun s => s) (mark_saved (fun s => s) (FileTabM.mk none ['a'] [] [])) = true ∧
    (∀ u : FileTabM, is_saved (fun s => s) u = true ↔
      get_hash (fun s => s) u = u.save_hash) ∧
    is_saved (fun s => s)
      (set_content (mark_saved (fun s => s) (FileTabM.mk none ['a'] [] [])) ['b']) = false :=
  is_saved_digest_scheme (fun s => s) (FileTabM.mk none ['a'] [] []) ['b'] (by decide)

/-- Claim C8: assigning an empty list to the `tokens` property is silently
ignored (the cached token list is unchanged), while assigning any non-empty
list replaces the cache. -/
theorem tokens_setter_ignores_empty (t : FileTabM) (toks : List PyStr)
    (h : toks ≠ []) :
    set_tokens t [] = t ∧ set_tokens t toks = { t with tokens := toks } := by
  constructor
  · simp [set_tokens]
  · have hlen : toks.length > 0 := List.length_pos.mpr h
    simp [set_tokens, hlen]

theorem tokens_setter_ignores_empty_witness :
    set_tokens (FileTabM.mk none [] [] []) [] = FileTabM.mk none [] [] [] ∧
    set_tokens (FileTabM.mk none [] [] []) [['a']] =
      { FileTabM.mk none [] [] [] with tokens := [['a']] } :=
  tokens_setter_ignores_empty (FileTabM.mk none [] [] []) [['a']] (by decide)

/-- Claim C9: `save_as()` returns `False` when the path prompt is cancelled and
`True` whenever a path is chosen, even if the write fails; `save()` on a tab
with a path returns `None` (not `False`) on an I/O failure and `True` on
success; hence `can_be_closed()` returns `None` when the user asks to save an
unsaved tab with a path and the write fails. -/
theorem save_as_save_can_be_closed (md5 : PyStr → PyStr) (env : SaveEnv)
    (t : FileTabM) (p : PyStr) (hpath : t.path = some p)
    (hfail : env.writeOk = false) (hprompt : env.promptResult ≠ [])
    (hdirty : is_saved md5 t = false) (hask : env.askAnswer = some true) :
    (∀ (env2 : SaveEnv) (u : FileTabM), env2.promptResult = [] →
      save_as md5 env2 u = (u, PyVal.pyFalse)) ∧
    (save_as md5 env t).2 = PyVal.pyTrue ∧
    save md5 env t = (t, PyVal.pyNone) ∧
    (∀ (env3 : SaveEnv) (u : FileTabM) (q : PyStr), env3.writeOk = true →
      u.path = some q → (save md5 env3 u).2 = PyVal.pyTrue) ∧
    can_be_closed md5 env t = (t, PyVal.pyNone) := by
  refine ⟨?_, ?_, ?_, ?_, ?_⟩
  · intro env2 u h2
    simp [save_as, h2]
  · simp [save_as, hprompt]
  · simp [save, hpath, save_with_path, hfail]
  · intro env3 u q h3 hq
    simp [save, hq, save_with_path, h3]
  · simp [can_be_closed, hdirty, hask, save, hpath, save_with_path, hfail]

theorem save_as_save_can_be_closed_witness :
    (∀ (env2 : SaveEnv) (u : FileTabM), env2.promptResult = [] →
      save_as (fun s => s) env2 u = (u, PyVal.pyFalse)) ∧
    (save_as (fun s => s) (SaveEnv.mk ['q'] false (some true))
      (FileTabM.mk (some ['p']) ['a'] ['z'] [])).2 = PyVal.pyTrue ∧
    save (fun s => s) (SaveEnv.mk ['q'] false (some true))
        (FileTabM.mk (some ['p']) ['a'] ['z'] []) =
      (FileTabM.mk (some ['p']) ['a'] ['z'] [], PyVal.pyNone) ∧
    (∀ (env3 : SaveEnv) (u : FileTabM) (q : PyStr), env3.writeOk = true →
      u.path = some q → (save (fun s => s) env3 u).2 = PyVal.pyTrue) ∧
    can_be_closed (fun s => s) (SaveEnv.mk ['q'] false (some true))
        (FileTabM.mk (some ['p']) ['a'] ['z'] []) =
      (FileTabM.mk (some ['p']) ['a'] ['z'] [], PyVal.pyNone) :=
  save_as_save_can_be_closed (fun s => s) (SaveEnv.mk ['q'] false (some true))
    (FileTabM.mk (some ['p']) ['a'] ['z'] []) ['p'] (by decide) (by decide)
    (by decide) (by decide) (by decide)

/-- Claim C7: pressing an enabled action binding runs the bound effect
(`command`: invokes the callback; `yesno`: flips the bound boolean) and the
handler returns the Tcl break string so the key event is consumed; on a
disabled action nothing runs, break is not returned, and the key passes to the
focused widget. -/
theorem binding_respects_enabled (kind : AKind) (s : BindSt) :
    (s.enabled = true → kind = AKind.command →
      bind_callback kind s = ({ s with callCount := s.callCount + 1 }, true)) ∧
    (s.enabled = true → kind = AKind.yesno →
      bind_callback kind s = ({ s with var := !s.var }, true)) ∧
    (s.enabled = false → bind_callback kind s = (s, false)) := by
  refine ⟨?_, ?_, ?_⟩
  · intro hen hc
    simp [bind_callback, hen, hc]
  · intro hen hy
    simp [bind_callback, hen, hy]
  · intro hen
    simp [bind_callback, hen]

theorem binding_respects_enabled_witness :
    ((BindSt.mk true false 0).enabled = true → AKind.command = AKind.command →
      bind_callback AKind.command (BindSt.mk true false 0) =
        ({ BindSt.mk true false 0 with callCount := 0 + 1 }, true)) ∧
    ((BindSt.mk true false 0).enabled = true → AKind.command = AKind.yesno →
      bind_callback AKind.command (BindSt.mk true false 0) =
        ({ BindSt.mk true false 0 with var := !false }, true)) ∧
    ((BindSt.mk true false 0).enabled = false →
      bind_callback AKind.command (BindSt.mk true false 0) =
        (BindSt.mk true false 0, false)) :=
  binding_respects_enabled AKind.command (BindSt.mk true false 0)

theorem filetab_rule_step (s : EnSt) (newSel : Option Tab) :
    ((selectionChange [PyClass.fileTabClass] s newSel).enabled = true ↔
      ∃ i p, (selectionChange [PyClass.fileTabClass] s newSel).selected =
        some (Tab.file i p)) := by
  cases newSel with
  | none => simp [selectionChange, enable_or_disable, pyIsinstance, pyMatches]
  | some tb =>
    cases tb with
    | generic i => simp [selectionChange, enable_or_disable, pyIsinstance, pyMatches]
    | file i p =>
      simp only [selectionChange, enable_or_disable, pyIsinstance]
      simp [pyMatches]

theorem filetab_rule_fold (l : List (Option Tab)) :
    ∀ s : EnSt, l ≠ [] →
      ((l.foldl (selectionChange [PyClass.fileTabClass]) s).enabled = true ↔
        ∃ i p, (l.foldl (selectionChange [PyClass.fileTabClass]) s).selected =
          some (Tab.file i p)) := by
  induction l with
  | nil => intro s h; exact absurd rfl h
  | cons a rest ih =>
    intro s _
    rw [List.foldl_cons]
    by_cases hr : rest = []
    · subst hr
      simpa using filetab_rule_step s a
    · exact ih (selectionChange [PyClass.fileTabClass] s a) hr

/-- Claim C4: for an action registered with a tab-type enablement rule
restricted to the set containing only `FileTab`, after every selection change of
the tab manager (including to no tab selected) the enabled flag is true exactly
when the currently selected tab is a `FileTab`; the rule is re-evaluated by the
`<<NotebookTabChanged>>` binding with no explicit `set_enabled` call. -/
theorem filetab_rule_tracks_selection (s : EnSt) (changes : List (Option Tab))
    (n : Nat) (h : n < changes.length) :
    (((changes.take (n + 1)).foldl (selectionChange [PyClass.fileTabClass]) s).enabled
        = true ↔
      ∃ i p, ((changes.take (n + 1)).foldl
          (selectionChange [PyClass.fileTabClass]) s).selected =
        some (Tab.file i p)) := by
  have hne : changes.take (n + 1) ≠ [] := by
    intro heq
    have hlen : (changes.take (n + 1)).length = 0 := by rw [heq]; rfl
    rw [List.length_take] at hlen
    omega
  exact filetab_rule_fold (changes.take (n + 1)) s hne

theorem filetab_rule_tracks_selection_witness :
    0 < ([some (Tab.file 0 none), none] : List (Option Tab)).length ∧
    ((([some (Tab.file 0 none), none].take (0 + 1)).foldl
        (selectionChange [PyClass.fileTabClass]) (EnSt.mk none false)).enabled = true ↔
      ∃ i p, (([some (Tab.file 0 none), none].take (0 + 1)).foldl
          (selectionChange [PyClass.fileTabClass]) (EnSt.mk none false)).selected =
        some (Tab.file i p)) :=
  ⟨by decide,
    filetab_rule_tracks_selection (EnSt.mk none false)
      [some (Tab.file 0 none), none] 0 (by decide)⟩

/-- Claim C5: registration fails when the path is already registered, when the
path starts or ends with the separator, or when both a tab-type and a
file-type-name restriction are given; a successful registration preserves the
registry invariant; and lookups of two distinct registered paths return
distinct action objects. -/
theorem register_checks_and_distinct_lookup (r : Registry) (path p1 p2 : PyStr)
    (a1 a2 : RAction) (k : AKind) (b : Option PyStr)
    (ftn : Option (List PyStr)) (tts : Option (List PyClass))
    (hWF : RegWF r) (h1 : (p1, a1) ∈ r) (h2 : (p2, a2) ∈ r) (hne : p1 ≠ p2) :
    (regContains r path = true →
      ∃ err, add_any_action r path k b ftn tts = Except.error err) ∧
    (startswithSlash path = true ∨ endswithSlash path = true →
      add_any_action r path k b ftn tts = Except.error RegError.valueError) ∧
    (ftn.isSome = true → tts.isSome = true →
      ∃ err, add_any_action r path k b ftn tts = Except.error err) ∧
    (∀ r2 a, add_any_action r path k b ftn tts = Except.ok (r2, a) → RegWF r2) ∧
    (∃ b1 b2, get_action r p1 = some b1 ∧ get_action r p2 = some b2 ∧ b1 ≠ b2) := by
  refine ⟨?_, ?_, ?_, ?_, ?_⟩
  · intro hdup
    unfold add_any_action
    by_cases hc1 : (startswithSlash path || endswithSlash path) = true
    · exact ⟨RegError.valueError, by rw [if_pos hc1]⟩
    · rw [if_neg hc1]
      by_cases hc2 : (ftn.isSome && tts.isSome) = true
      · exact ⟨RegError.typeError, by rw [if_pos hc2]⟩
      · exact ⟨RegError.runtimeError, by rw [if_neg hc2, if_pos hdup]⟩
  · intro hmal
    unfold add_any_action
    have hc1 : (startswithSlash path || endswithSlash path) = true := by
      rcases hmal with hs | he
      · simp [hs]
      · simp [he]
    rw [if_pos hc1]
  · intro hf ht
    unfold add_any_action
    by_cases hc1 : (startswithSlash path || endswithSlash path) = true
    · exact ⟨RegError.valueError, by rw [if_pos hc1]⟩
    · exact ⟨RegError.typeError, by rw [if_neg hc1, if_pos (by simp [hf, ht])]⟩
  · intro r2 a hok
    unfold add_any_action at hok
    by_cases hc1 : (startswithSlash path || endswithSlash path) = true
    · rw [if_pos hc1] at hok
      exact absurd hok (by simp)
    · rw [if_neg hc1] at hok
      by_cases hc2 : (ftn.isSome && tts.isSome) = true
      · rw [if_pos hc2] at hok
        exact absurd hok (by simp)
      · rw [if_neg hc2] at hok
        by_cases hc3 : regContains r path = true
        · rw [if_pos hc3] at hok
          exact absurd hok (by simp)
        · rw [if_neg hc3] at hok
          have hr2 : r2 = r ++ [(path, RAction.mk path k b)] := by
            have := congrArg (fun x : Except RegError (Registry × RAction) =>
              match x with
              | Except.ok y => y.1
              | Except.error _ => r2) hok
            simpa using this.symm
          have hor : (startswithSlash path || endswithSlash path) = false := by
            simpa using hc1
          have hends : endswithSlash path = false := by
            rcases Bool.or_eq_false_iff.mp hor with ⟨_, he⟩
            exact he
          intro e he
          rw [hr2] at he
          rcases List.mem_append.mp he with hmem | hmem
          · exact hWF e hmem
          · have : e = (path, RAction.mk path k b) := by simpa using hmem
            rw [this]
            exact ⟨rfl, hends⟩
  · obtain ⟨b1, hb1, hb1p⟩ := mem_get_action r p1 a1 hWF h1
    obtain ⟨b2, hb2, hb2p⟩ := mem_get_action r p2 a2 hWF h2
    refine ⟨b1, b2, hb1, hb2, ?_⟩
    intro heq
    rw [heq, hb2p] at hb1p
    exact hne hb1p.symm

theorem register_checks_and_distinct_lookup_witness :
    (regContains [(['a'], RAction.mk ['a'] AKind.command none),
        (['b'], RAction.mk ['b'] AKind.command none)] ['a'] = true →
      ∃ err, add_any_action [(['a'], RAction.mk ['a'] AKind.command none),
          (['b'], RAction.mk ['b'] AKind.command none)] ['a'] AKind.command none
          (some [['t']]) (some [PyClass.fileTabClass]) = Except.error err) ∧
    (startswithSlash ['a'] = true ∨ endswithSlash ['a'] = true →
      add_any_action [(['a'], RAction.mk ['a'] AKind.command none),
          (['b'], RAction.mk ['b'] AKind.command none)] ['a'] AKind.command none
          (some [['t']]) (some [PyClass.fileTabClass]) =
        Except.error RegError.valueError) ∧
    ((some [['t']] : Option (List PyStr)).isSome = true →
      (some [PyClass.fileTabClass] : Option (List PyClass)).isSome = true →
      ∃ err, add_any_action [(['a'], RAction.mk ['a'] AKind.command none),
          (['b'], RAction.mk ['b'] AKind.command none)] ['a'] AKind.command none
          (some [['t']]) (some [PyClass.fileTabClass]) = Except.error err) ∧
    (∀ r2 a, add_any_action [(['a'], RAction.mk ['a'] AKind.command none),
        (['b'], RAction.mk ['b'] AKind.command none)] ['a'] AKind.command none
        (some [['t']]) (some [PyClass.fileTabClass]) = Except.ok (r2, a) →
      RegWF r2) ∧
    (∃ b1 b2, get_action [(['a'], RAction.mk ['a'] AKind.command none),
        (['b'], RAction.mk ['b'] AKind.command none)] ['a'] = some b1 ∧
      get_action [(['a'], RAction.mk ['a'] AKind.command none),
        (['b'], RAction.mk ['b'] AKind.command none)] ['b'] = some b2 ∧
      b1 ≠ b2) :=
  register_checks_and_distinct_lookup
    [(['a'], RAction.mk ['a'] AKind.command none),
      (['b'], RAction.mk ['b'] AKind.command none)]
    ['a'] ['a'] ['b'] (RAction.mk ['a'] AKind.command none)
    (RAction.mk ['b'] AKind.command none) AKind.command none
    (some [['t']]) (some [PyClass.fileTabClass])
    (by decide) (by decide) (by decide) (by decide)

/-- Claim C10: looking up a registered path with any string of trailing
separator characters appended returns the same action object as looking up the
path itself, because `get_action` strips trailing separators — even though a
path ending in a separator can never itself be registered. -/
theorem get_action_strips_trailing_slashes (r : Registry) (p : PyStr)
    (a : RAction) (s : PyStr) (k : AKind) (b : Option PyStr)
    (ftn : Option (List PyStr)) (tts : Option (List PyClass))
    (hWF : RegWF r) (h : (p, a) ∈ r) (hs : ∀ c ∈ s, c = '/') :
    get_action r (p ++ s) = get_action r p ∧
    (get_action r p).isSome = true ∧
    (∀ path2 : PyStr, endswithSlash path2 = true →
      add_any_action r path2 k b ftn tts = Except.error RegError.valueError) := by
  have hends : endswithSlash p = false := (hWF (p, a) h).2
  have hstrip : rstripSlash (p ++ s) = rstripSlash p := by
    rw [rstripSlash_append_slashes p s hends hs, rstripSlash_of_not_endswith p hends]
  refine ⟨?_, ?_, ?_⟩
  · unfold get_action
    rw [hstrip]
  · obtain ⟨b1, hb1, _⟩ := mem_get_action r p a hWF h
    simp [hb1]
  · intro path2 he2
    unfold add_any_action
    rw [if_pos (by simp [he2])]

theorem get_action_strips_trailing_slashes_witness :
    get_action [(['a'], RAction.mk ['a'] AKind.command none)] (['a'] ++ ['/', '/']) =
      get_action [(['a'], RAction.mk ['a'] AKind.command none)] ['a'] ∧
    (get_action [(['a'], RAction.mk ['a'] AKind.command none)] ['a']).isSome = true ∧
    (∀ path2 : PyStr, endswithSlash path2 = true →
      add_any_action [(['a'], RAction.mk ['a'] AKind.command none)] path2
        AKind.command none none none = Except.error RegError.valueError) :=
  get_action_strips_trailing_slashes
    [(['a'], RAction.mk ['a'] AKind.command none)] ['a']
    (RAction.mk ['a'] AKind.command none) ['/', '/'] AKind.command none none none
    (by decide) (by decide) (by decide)

/-- Claim C1: `add_tab` never inserts a duplicate — if some tab already in the
manager is equivalent to the new one, the tab sequence is unchanged, the
pre-existing equivalent tab is returned and (when `select=true`) becomes the
selection; otherwise the new tab is appended at the end, optionally selected,
and a `<<NewTab>>` event carrying it is generated. -/
theorem add_tab_dedups_or_appends (samefile : PyStr → PyStr → Bool)
    (m : TabManager) (tab : Tab) (sel : Bool) (hnotin : tab ∉ m.tabs) :
    ((∃ e ∈ m.tabs, tab.equivalent samefile e = true) →
      ∃ existing, existing ∈ m.tabs ∧ tab.equivalent samefile existing = true ∧
        add_tab samefile m tab sel =
          some (if sel then { m with selected := some existing } else m,
            existing, [])) ∧
    ((∀ e ∈ m.tabs, tab.equivalent samefile e = false) →
      add_tab samefile m tab sel =
        some ((if sel then { tabs := m.tabs ++ [tab], selected := some tab }
            else { tabs := m.tabs ++ [tab], selected := m.selected } : TabManager),
          tab, [TMEvent.newTab tab])) := by
  constructor
  · intro hex
    cases hfind : m.tabs.find? (fun e => tab.equivalent samefile e) with
    | none =>
      exfalso
      obtain ⟨e, he, heq⟩ := hex
      have := List.find?_eq_none.mp hfind e he
      exact this heq
    | some existing =>
      refine ⟨existing, List.mem_of_find?_eq_some hfind,
        List.find?_some hfind, ?_⟩
      unfold add_tab
      rw [if_neg hnotin, hfind]
  · intro hall
    have hfind : m.tabs.find? (fun e => tab.equivalent samefile e) = none := by
      rw [List.find?_eq_none]
      intro e he
      simp [hall e he]
    unfold add_tab
    rw [if_neg hnotin, hfind]

theorem add_tab_dedups_or_appends_witness :
    Tab.file 1 (some ['x']) ∉
      (TabManager.mk [Tab.file 0 (some ['x'])] (some (Tab.file 0 (some ['x'])))).tabs ∧
    (((∃ e ∈ (TabManager.mk [Tab.file 0 (some ['x'])]
          (some (Tab.file 0 (some ['x'])))).tabs,
        Tab.equivalent (fun a b => a == b) (Tab.file 1 (some ['x'])) e = true) →
      ∃ existing, existing ∈ (TabManager.mk [Tab.file 0 (some ['x'])]
          (some (Tab.file 0 (some ['x'])))).tabs ∧
        Tab.equivalent (fun a b => a == b) (Tab.file 1 (some ['x'])) existing = true ∧
        add_tab (fun a b => a == b)
            (TabManager.mk [Tab.file 0 (some ['x'])] (some (Tab.file 0 (some ['x']))))
            (Tab.file 1 (some ['x'])) true =
          some (if true then { TabManager.mk [Tab.file 0 (some ['x'])]
              (some (Tab.file 0 (some ['x']))) with selected := some existing }
            else TabManager.mk [Tab.file 0 (some ['x'])]
              (some (Tab.file 0 (some ['x']))), existing, [])) ∧
    ((∀ e ∈ (TabManager.mk [Tab.file 0 (some ['x'])]
          (some (Tab.file 0 (some ['x'])))).tabs,
        Tab.equivalent (fun a b => a == b) (Tab.file 1 (some ['x'])) e = false) →
      add_tab (fun a b => a == b)
          (TabManager.mk [Tab.file 0 (some ['x'])] (some (Tab.file 0 (some ['x']))))
          (Tab.file 1 (some ['x'])) true =
        some ((if true then
            { tabs := (TabManager.mk [Tab.file 0 (some ['x'])]
                (some (Tab.file 0 (some ['x'])))).tabs ++ [Tab.file 1 (some ['x'])],
              selected := some (Tab.file 1 (some ['x'])) }
          else
            { tabs := (TabManager.mk [Tab.file 0 (some ['x'])]
                (some (Tab.file 0 (some ['x'])))).tabs ++ [Tab.file 1 (some ['x'])],
              selected := (TabManager.mk [Tab.file 0 (some ['x'])]
                (some (Tab.file 0 (some ['x'])))).selected } : TabManager),
          Tab.file 1 (some ['x']), [TMEvent.newTab (Tab.file 1 (some ['x']))]))) :=
  ⟨by decide,
    add_tab_dedups_or_appends (fun a b => a == b)
      (TabManager.mk [Tab.file 0 (some ['x'])] (some (Tab.file 0 (some ['x']))))
      (Tab.file 1 (some ['x'])) true (by decide)⟩

/-- Claim C6: `select_another_tab` with direction `+1`/`-1` returns false and
leaves the selection unchanged on an empty manager and at the corresponding
boundary (first tab for `-1`, last tab for `+1`), with no wraparound; in all
other cases it selects the neighbouring tab in display order and returns
true. -/
theorem select_adjacent_boundaries (m : TabManager) (t : Tab) (diff : Int)
    (hdiff : diff = 1 ∨ diff = -1) (hsel : m.selected = some t)
    (hmem : t ∈ m.tabs) :
    (m.tabs.indexOf t = 0 → diff = -1 →
      select_another_tab m diff = some (m, false)) ∧
    (m.tabs.indexOf t = m.tabs.length - 1 → diff = 1 →
      select_another_tab m diff = some (m, false)) ∧
    (∀ u, 0 ≤ (m.tabs.indexOf t : Int) + diff →
      m.tabs.get? ((m.tabs.indexOf t : Int) + diff).toNat = some u →
      select_another_tab m diff = some ({ m with selected := some u }, true)) ∧
    (∀ m2 : TabManager, m2.tabs = [] →
      select_another_tab m2 diff = some (m2, false)) := by
  have hnonempty : m.tabs.isEmpty = false := by
    cases htabs : m.tabs with
    | nil => rw [htabs] at hmem; exact absurd hmem (List.not_mem_nil t)
    | cons a l => simp
  refine ⟨?_, ?_, ?_, ?_⟩
  · intro hidx hd
    unfold select_another_tab
    rw [if_pos hdiff, hnonempty]
    simp only [Bool.false_eq_true, if_false, hsel]
    have hneg : ¬(0 ≤ (m.tabs.indexOf t : Int) + diff) := by
      rw [hidx, hd]
      simp
    rw [if_neg hneg]
  · intro hidx hd
    unfold select_another_tab
    rw [if_pos hdiff, hnonempty]
    simp only [Bool.false_eq_true, if_false, hsel]
    have hlenpos : 0 < m.tabs.length := List.length_pos.mpr (by
      intro hnil
      rw [hnil] at hmem
      exact absurd hmem (List.not_mem_nil t))
    have hj : (m.tabs.indexOf t : Int) + diff = (m.tabs.length : Int) := by
      rw [hidx, hd]
      omega
    rw [hj]
    have hnn : (0 : Int) ≤ (m.tabs.length : Int) := by positivity
    rw [if_pos hnn]
    have htoNat : ((m.tabs.length : Int)).toNat = m.tabs.length := Int.toNat_natCast _
    rw [htoNat]
    have hnone : m.tabs.get? m.tabs.length = none :=
      List.get?_len_le (le_refl _)
    rw [hnone]
  · intro u hge hget
    unfold select_another_tab
    rw [if_pos hdiff, hnonempty]
    simp only [Bool.false_eq_true, if_false, hsel]
    rw [if_pos hge, hget]
  · intro m2 h2
    unfold select_another_tab
    rw [if_pos hdiff, h2]
    simp

theorem select_adjacent_boundaries_witness :
    (((TabManager.mk [Tab.generic 0, Tab.generic 1]
        (some (Tab.generic 1))).tabs.indexOf (Tab.generic 1) = 0 →
      (1 : Int) = -1 →
      select_another_tab (TabManager.mk [Tab.generic 0, Tab.generic 1]
          (some (Tab.generic 1))) 1 =
        some (TabManager.mk [Tab.generic 0, Tab.generic 1]
          (some (Tab.generic 1)), false)) ∧
    ((TabManager.mk [Tab.generic 0, Tab.generic 1]
        (some (Tab.generic 1))).tabs.indexOf (Tab.generic 1) =
        (TabManager.mk [Tab.generic 0, Tab.generic 1]
          (some (Tab.generic 1))).tabs.length - 1 →
      (1 : Int) = 1 →
      select_another_tab (TabManager.mk [Tab.generic 0, Tab.generic 1]
          (some (Tab.generic 1))) 1 =
        some (TabManager.mk [Tab.generic 0, Tab.generic 1]
          (some (Tab.generic 1)), false)) ∧
    (∀ u, 0 ≤ ((TabManager.mk [Tab.generic 0, Tab.generic 1]
          (some (Tab.generic 1))).tabs.indexOf (Tab.generic 1) : Int) + 1 →
      (TabManager.mk [Tab.generic 0, Tab.generic 1]
          (some (Tab.generic 1))).tabs.get? ((((TabManager.mk
            [Tab.generic 0, Tab.generic 1] (some (Tab.generic 1))).tabs.indexOf
              (Tab.generic 1) : Int)) + 1).toNat = some u →
      select_another_tab (TabManager.mk [Tab.generic 0, Tab.generic 1]
          (some (Tab.generic 1))) 1 =
        some ({ TabManager.mk [Tab.generic 0, Tab.generic 1]
          (some (Tab.generic 1)) with selected := some u }, true)) ∧
    (∀ m2 : TabManager, m2.tabs = [] →
      select_another_tab m2 1 = some (m2, false))) :=
  select_adjacent_boundaries
    (TabManager.mk [Tab.generic 0, Tab.generic 1] (some (Tab.generic 1)))
    (Tab.generic 1) 1 (Or.inl rfl) (by decide) (by decide)

/-- Claim C3: writing through `backup_open` to an existing destination with
content `A`: if the write raises, the destination is byte-identical to `A`
afterwards and the original error is re-raised; if the write succeeds, the
backup file is deleted and the destination holds the written data, so the
destination is never left part-way written relative to its previous good
state. -/
theorem backup_open_atomic (fs : FS) (path A data written : PyStr) (e : Nat)
    (hA : fsRead fs path = some A) :
    (backup_open fs path (WriteOutcome.raises written e)).2 = some e ∧
    fsRead (backup_open fs path (WriteOutcome.raises written e)).1 path = some A ∧
    (backup_open fs path (WriteOutcome.ok data)).2 = none ∧
    fsRead (backup_open fs path (WriteOutcome.ok data)).1 (backupPathFor fs path)
      = none ∧
    fsRead (backup_open fs path (WriteOutcome.ok data)).1 path = some data := by
  have hex : fsExists fs path = true := by simp [fsExists, hA]
  have hne : backupPathFor fs path ≠ path := backupPathFor_ne fs path hex
  have hcopy : fsCopy fs path (backupPathFor fs path) =
      fsWrite fs (backupPathFor fs path) A := by
    unfold fsCopy
    rw [hA]
  have hfail : backup_open fs path (WriteOutcome.raises written e) =
      (fsMove (fsWrite (fsWrite fs (backupPathFor fs path) A) path written)
        (backupPathFor fs path) path, some e) := by
    unfold backup_open
    rw [if_pos hex]
    simp only [hcopy]
  have hreadback :
      fsRead (fsWrite (fsWrite fs (backupPathFor fs path) A) path written)
        (backupPathFor fs path) = some A := by
    rw [fsRead_fsWrite_ne _ _ _ _ (Ne.symm hne), fsRead_fsWrite_self]
  have hmove :
      fsMove (fsWrite (fsWrite fs (backupPathFor fs path) A) path written)
        (backupPathFor fs path) path =
      fsWrite (fsRemove (fsWrite (fsWrite fs (backupPathFor fs path) A)
        path written) (backupPathFor fs path)) path A := by
    unfold fsMove
    rw [hreadback]
  have hok : backup_open fs path (WriteOutcome.ok data) =
      (fsRemove (fsWrite (fsWrite fs (backupPathFor fs path) A) path data)
        (backupPathFor fs path), none) := by
    unfold backup_open
    rw [if_pos hex]
    simp only [hcopy]
  refine ⟨?_, ?_, ?_, ?_, ?_⟩
  · rw [hfail]
  · rw [hfail]
    simp only
    rw [hmove, fsRead_fsWrite_self]
  · rw [hok]
  · rw [hok]
    simp only
    rw [fsRead_fsRemove_self]
  · rw [hok]
    simp only
    rw [fsRead_fsRemove_ne _ _ _ hne, fsRead_fsWrite_self]

theorem backup_open_atomic_witness :
    (backup_open [(['f'], ['A', 'A'])] ['f'] (WriteOutcome.raises ['p'] 7)).2 =
      some 7 ∧
    fsRead (backup_open [(['f'], ['A', 'A'])] ['f']
      (WriteOutcome.raises ['p'] 7)).1 ['f'] = some ['A', 'A'] ∧
    (backup_open [(['f'], ['A', 'A'])] ['f'] (WriteOutcome.ok ['B'])).2 = none ∧
    fsRead (backup_open [(['f'], ['A', 'A'])] ['f'] (WriteOutcome.ok ['B'])).1
      (backupPathFor [(['f'], ['A', 'A'])] ['f']) = none ∧
    fsRead (backup_open [(['f'], ['A', 'A'])] ['f'] (WriteOutcome.ok ['B'])).1
      ['f'] = some ['B'] :=
  backup_open_atomic [(['f'], ['A', 'A'])] ['f'] ['A', 'A'] ['B'] ['p'] 7
    (by decide)

end SimpleEditor

